import Mathlib

/-!
Shallow embedding of the recall-s3 gateway core (crate `basin_s3`) and
verification of its specification claims.

Byte strings are modelled as `List Nat` (each element a byte value), machine
integers (`u64`, `i32`) as `Nat`/`Int` with explicit bounds where conversions
can fail, fallible Rust code as `Outcome`, and `unreachable!()` / `.unwrap()`
panics as `Outcome.crashed`.  External collaborators (the `hoku_sdk` backend
RPC surface, `ethers` address parsing, the `md5` crate digest, the `s3s`
timestamp parser) are passed to each handler as explicit function parameters,
mirroring the call sites in `src/lib/basin_s3/src/s3.rs`.
-/

/-- S3 error codes surfaced by the gateway (`s3s::S3ErrorCode`; the gateway
builds them via `s3_error!`, `try_!` (→ `InternalError`) and
`S3ErrorCode::Custom`). -/
inductive S3ErrCode where
  | NotImplemented
  | InvalidBucketName
  | NoSuchBucket
  | NoSuchKey
  | InvalidRequest
  | InvalidPart
  | IncompleteBody
  | BucketAlreadyExists
  | InvalidRange
  | InternalError
  | Custom (msg : String)
  deriving DecidableEq, Repr

/-- Result of running a handler body: a success value, an `S3Error` returned
to the client, or a process panic (`unreachable!()` / `.unwrap()`). -/
inductive Outcome (α : Type) where
  | ok (a : α)
  | err (e : S3ErrCode)
  | crashed
  deriving DecidableEq, Repr

namespace BasinS3

/-! ## Bucket-name validation (`src/lib/basin_s3/src/bucket.rs`) -/

/-- `u8::is_ascii_lowercase`. -/
def isAsciiLowercase (b : Nat) : Bool := 97 ≤ b && b ≤ 122

/-- `u8::is_ascii_digit`. -/
def isAsciiDigit (b : Nat) : Bool := 48 ≤ b && b ≤ 57

/-- The byte alphabet admitted by `check_bucket_name`:
`b.is_ascii_lowercase() || b.is_ascii_digit() || b == b'.' || b == b'-'`. -/
def isAllowedByte (b : Nat) : Bool :=
  isAsciiLowercase b || isAsciiDigit b || b == 46 || b == 45

/-- `name.contains("..")` on the byte level: the two-byte pattern `".."`
occurs as a contiguous substring. -/
def hasDoubleDot : List Nat → Bool
  | b :: c :: rest => (b == 46 && c == 46) || hasDoubleDot (c :: rest)
  | _ => false

/-- `check_bucket_name` (bucket.rs lines 41-75), byte-for-byte: length in
`3..=20`, alphabet `[a-z0-9.-]`, first and last byte lowercase-or-digit
(checked via `Some(true) = .first().map(...)`), no `".."` substring. -/
def check_bucket_name (name : List Nat) : Bool :=
  if !(3 ≤ name.length && name.length ≤ 20) then false
  else if !(name.all isAllowedByte) then false
  else if !(name.head?.map (fun b => isAsciiLowercase b || isAsciiDigit b) == some true) then
    false
  else if !(name.getLast?.map (fun b => isAsciiLowercase b || isAsciiDigit b) == some true) then
    false
  else if hasDoubleDot name then false
  else true

/-- ASCII alphanumeric, as the claim's word "alphanumeric": letter (either
case) or digit. -/
def isAsciiAlnum (b : Nat) : Bool :=
  (65 ≤ b && b ≤ 90) || isAsciiLowercase b || isAsciiDigit b

/-- The specification predicate for bucket names, written from the spec's
words: `3 ≤ len(n) ≤ 20` (bytes), alphabet `⊆ [a-z0-9.-]`, endpoints
alphanumeric, no `".."` substring (two consecutive dot bytes). -/
def bucketNameSpec (name : List Nat) : Prop :=
  3 ≤ name.length ∧ name.length ≤ 20 ∧
  (∀ b ∈ name, isAllowedByte b = true) ∧
  (∃ b, name.head? = some b ∧ isAsciiAlnum b = true) ∧
  (∃ b, name.getLast? = some b ∧ isAsciiAlnum b = true) ∧
  ¬ ∃ i, name.get? i = some 46 ∧ name.get? (i + 1) = some 46

instance (name : List Nat) : Decidable (bucketNameSpec name) := by
  unfold bucketNameSpec
  have : Decidable (∃ i, name.get? i = some 46 ∧ name.get? (i + 1) = some 46) := by
    refine decidable_of_iff
      (∃ i : Fin name.length, name.get? i.val = some 46 ∧ name.get? (i.val + 1) = some 46) ?_
    constructor
    · rintro ⟨i, h⟩; exact ⟨i.val, h⟩
    · rintro ⟨i, h1, h2⟩
      have hi : i < name.length := by
        by_contra hge
        rw [List.get?_eq_none.mpr (Nat.le_of_not_lt hge)] at h1
        exact Option.noConfusion h1
      exact ⟨⟨i, hi⟩, h1, h2⟩
  exact inferInstance

/-- `hasDoubleDot` detects exactly a pair of adjacent dot bytes. -/
theorem hasDoubleDot_iff (l : List Nat) :
    hasDoubleDot l = true ↔ ∃ i, l.get? i = some 46 ∧ l.get? (i + 1) = some 46 := by
  induction l with
  | nil => simp [hasDoubleDot]
  | cons b rest ih =>
    cases rest with
    | nil =>
      simp only [hasDoubleDot]
      constructor
      · intro h; exact absurd h (by simp)
      · rintro ⟨i, h1, h2⟩
        cases i with
        | zero => simp at h2
        | succ j => simp at h1
    | cons c rest2 =>
      simp only [hasDoubleDot, Bool.or_eq_true, Bool.and_eq_true, beq_iff_eq]
      rw [ih]
      constructor
      · rintro (⟨hb, hc⟩ | ⟨i, h1, h2⟩)
        · exact ⟨0, by simp [hb], by simp [hc]⟩
        · exact ⟨i + 1, by simpa using h1, by simpa using h2⟩
      · rintro ⟨i, h1, h2⟩
        cases i with
        | zero =>
          left
          simp only [List.get?] at h1 h2
          exact ⟨Option.some.inj h1, Option.some.inj h2⟩
        | succ j =>
          right
          exact ⟨j, by simpa using h1, by simpa using h2⟩

/-- `check_bucket_name` unfolded to a conjunction of its five checks. -/
theorem check_bucket_name_shape (name : List Nat) :
    check_bucket_name name = true ↔
      (3 ≤ name.length ∧ name.length ≤ 20) ∧ (∀ b ∈ name, isAllowedByte b = true) ∧
      name.head?.map (fun b => isAsciiLowercase b || isAsciiDigit b) = some true ∧
      name.getLast?.map (fun b => isAsciiLowercase b || isAsciiDigit b) = some true ∧
      hasDoubleDot name = false := by
  unfold check_bucket_name
  split_ifs with h1 h2 h3 h4 h5 <;>
    simp_all [List.all_eq_true, Option.map_eq_some']
  · intros; omega
  · refine ⟨h3.imp fun x hx => ⟨hx.1, ?_⟩, h4.imp fun x hx => ⟨hx.1, ?_⟩⟩ <;>
      · by_cases h : isAsciiLowercase x = true <;> simp_all

/-- Inside the admitted alphabet, "alphanumeric" coincides with
lowercase-or-digit (uppercase letters are already excluded). -/
theorem alnum_of_allowed {b : Nat} (hallow : isAllowedByte b = true) :
    isAsciiAlnum b = (isAsciiLowercase b || isAsciiDigit b) := by
  unfold isAllowedByte isAsciiAlnum isAsciiLowercase isAsciiDigit at *
  simp only [Bool.or_eq_true, Bool.and_eq_true, decide_eq_true_eq, beq_iff_eq] at hallow
  rw [Bool.eq_iff_iff]
  simp only [Bool.or_eq_true, Bool.and_eq_true, decide_eq_true_eq]
  omega

theorem check_bucket_name_iff (name : List Nat) :
    check_bucket_name name = true ↔ bucketNameSpec name := by
  rw [check_bucket_name_shape]
  unfold bucketNameSpec
  constructor
  · rintro ⟨⟨hl1, hl2⟩, hall, hh, hlast, hdd⟩
    obtain ⟨b0, hb0, h0⟩ := Option.map_eq_some'.mp hh
    obtain ⟨bl, hbl, hl⟩ := Option.map_eq_some'.mp hlast
    have hb0mem : b0 ∈ name := by
      cases name with
      | nil => simp at hb0
      | cons x xs => simp only [List.head?_cons, Option.some.injEq] at hb0; simp [← hb0]
    have hblmem : bl ∈ name := by
      obtain ⟨h9, h10⟩ := List.mem_getLast?_eq_getLast (x := bl) (l := name)
        (by simp [hbl, Option.mem_def])
      exact h10 ▸ List.getLast_mem h9
    refine ⟨hl1, hl2, hall, ⟨b0, hb0, ?_⟩, ⟨bl, hbl, ?_⟩, ?_⟩
    · rw [alnum_of_allowed (hall _ hb0mem)]; exact h0
    · rw [alnum_of_allowed (hall _ hblmem)]; exact hl
    · intro hex
      rw [← hasDoubleDot_iff] at hex
      simp [hdd] at hex
  · rintro ⟨hl1, hl2, hall, ⟨b0, hb0, h0⟩, ⟨bl, hbl, hl⟩, hnodd⟩
    have hb0mem : b0 ∈ name := by
      cases name with
      | nil => simp at hb0
      | cons x xs => simp only [List.head?_cons, Option.some.injEq] at hb0; simp [← hb0]
    have hblmem : bl ∈ name := by
      obtain ⟨h9, h10⟩ := List.mem_getLast?_eq_getLast (x := bl) (l := name)
        (by simp [hbl, Option.mem_def])
      exact h10 ▸ List.getLast_mem h9
    refine ⟨⟨hl1, hl2⟩, hall, ?_, ?_, ?_⟩
    · rw [hb0]; simp only [Option.map_some', Option.some.injEq]
      rw [← alnum_of_allowed (hall _ hb0mem)]; exact h0
    · rw [hbl]; simp only [Option.map_some', Option.some.injEq]
      rw [← alnum_of_allowed (hall _ hblmem)]; exact hl
    · rw [← Bool.not_eq_true, hasDoubleDot_iff]; exact hnodd

end BasinS3

namespace BasinS3

/-! ## Range translator (`src/lib/basin_s3/src/range.rs`) -/

/-- `HTTPRangeSpec { start: Option<u64>, end: Option<u64> }`.  The `end`
field is renamed `stop` because `end` is a Lean keyword. -/
structure HTTPRangeSpec where
  start : Option Nat
  stop : Option Nat
  deriving DecidableEq, Repr

/-- `HTTPRangeSpec::get_offset_length` (range.rs lines 23-41).  The wildcard
arm's `unreachable!("this state is not possible")` is modelled as
`Outcome.crashed`; the guarded match arms fall through to it exactly as in
Rust. -/
def get_offset_length (r : HTTPRangeSpec) (size : Nat) : Outcome (Nat × Nat) :=
  match r.start, r.stop with
  | some start, some e =>
    if start ≤ e then
      if size ≤ e then .ok (start, size - 1)
      else .ok (start, e - start + 1)
    else .crashed
  | some start, none =>
    if start < size then .ok (start, size - start) else .crashed
  | none, some e =>
    if 0 < e then
      if e ≤ size then .ok (size - e, e) else .ok (0, size)
    else .crashed
  | none, none => .crashed

/-! ## Staging paths (`src/lib/basin_s3/src/basin.rs`) and
`abort_multipart_upload` (`src/lib/basin_s3/src/s3.rs` lines 92-128) -/

/-- `Basin::get_upload_part_path`: `<root>/.upload-<uuid>.part-<N>.json`.
The staging root is a single directory, so entries are modelled by file name
alone; `uploadId` stands for the hyphenated rendering of the parsed UUID. -/
def get_upload_part_path (uploadId : String) (partNumber : Int) : String :=
  ".upload-" ++ uploadId ++ ".part-" ++ toString partNumber ++ ".json"

/-- The prefix `abort_multipart_upload` scans for:
`format!(".upload_id-{upload_id}")`. -/
def abortScanPat (uploadId : String) : String := ".upload_id-" ++ uploadId

/-- Character lists `s` begins with `p`. -/
def charsLeadWith : List Char → List Char → Bool
  | _, [] => true
  | [], _ :: _ => false
  | c :: cs, d :: ds => c == d && charsLeadWith cs ds

/-- Rust `str::starts_with` on exact characters. -/
def strStartsWith (s p : String) : Bool := charsLeadWith s.data p.data

/-- One entry of the staging-root directory, as seen by `fs::read_dir`. -/
structure DirEntry where
  name : String
  isFile : Bool
  deriving DecidableEq, Repr

/-- The directory scan in `abort_multipart_upload`: every regular file whose
name starts with the abort prefix is removed; other entries are kept. -/
def abort_scan (uploadId : String) (entries : List DirEntry) : List DirEntry :=
  entries.filter (fun e => !(e.isFile && strStartsWith e.name (abortScanPat uploadId)))

/-- Gateway state relevant to the claims: `Basin { wallet, is_read_only }`
(`src/lib/basin_s3/src/basin.rs` lines 19-24), with the wallet type
abstract. -/
structure Gateway (W : Type) where
  wallet : Option W
  is_read_only : Bool

/-- `Basin::new`: `is_read_only = wallet.is_none()`. -/
def basinNew {W : Type} (wallet : Option W) : Gateway W :=
  { wallet := wallet, is_read_only := wallet.isNone }

/-- `abort_multipart_upload`: read-only gate, UUID parsing (the external
`Uuid::parse_str` is the parameter `uuidParse`, returning the parsed id's
rendering), then the directory scan.  Returns the outcome and the staging
root after the call. -/
def abort_multipart_upload {W : Type} (g : Gateway W) (uuidParse : String → Option String)
    (uploadIdRaw : String) (entries : List DirEntry) : Outcome Unit × List DirEntry :=
  if g.is_read_only then (.err .NotImplemented, entries)
  else
    match uuidParse uploadIdRaw with
    | none => (.err .InvalidRequest, entries)
    | some u => (.ok (), abort_scan u entries)

end BasinS3

namespace BasinS3

/-- No part file ever matches the abort scan prefix: the part path begins
`".upload-"` while the scan looks for `".upload_id-"`, so they disagree at
the eighth character for every upload id and part number. -/
theorem part_path_not_hit_by_abort_scan (u : String) (n : Int) :
    strStartsWith (get_upload_part_path u n) (abortScanPat u) = false := by
  simp [strStartsWith, get_upload_part_path, abortScanPat, charsLeadWith,
    String.data_append]

/-- C3: FAILS ON THE CODE.  After `UploadPart` wrote the part file
`.upload-<uuid>.part-1.json`, a successful `AbortMultipartUpload` leaves that
file in the staging root (the scan prefix `.upload_id-<uuid>` matches no part
file), even though the file does start with the part prefix
`.upload-<uuid>.part-`; the abort itself returns success, and so does a
second abort on the unchanged root. -/
theorem abort_leaves_part_file_eval :
    (abort_multipart_upload (basinNew (some ()))
        (fun s => if s = "00000000-0000-0000-0000-000000000000" then
          some "00000000-0000-0000-0000-000000000000" else none)
        "00000000-0000-0000-0000-000000000000"
        [⟨get_upload_part_path "00000000-0000-0000-0000-000000000000" 1, true⟩]
      = (.ok (), [⟨get_upload_part_path "00000000-0000-0000-0000-000000000000" 1, true⟩]))
    ∧ strStartsWith (get_upload_part_path "00000000-0000-0000-0000-000000000000" 1)
        (".upload-" ++ "00000000-0000-0000-0000-000000000000" ++ ".part-") = true := by
  constructor
  · decide
  · decide

/-- C4: FAILS ON THE CODE.  For `{first := 2, last := 100}` over an object of
size 10, `get_offset_length` returns length `size - 1 = 9` (the `size <= end`
branch ignores `first`), while the spec's table demands
`min(last, size-1) - first + 1 = 8`; the returned window `[2, 2+9)` overruns
the object. -/
theorem get_offset_length_failing_eval :
    get_offset_length ⟨some 2, some 100⟩ 10 = .ok (2, 9)
    ∧ min 100 (10 - 1) - 2 + 1 = 8
    ∧ (9 : Nat) ≠ 8 := by decide

/-- C5 counterexample: on the invalid shape `{first := 5, last := 2}`
(`first > last`) the range translator does not return an `InvalidRange`
error result — it panics (`unreachable!`). -/
theorem get_offset_length_invalid_crashes_eval :
    get_offset_length ⟨some 5, some 2⟩ 10 = .crashed
    ∧ (Outcome.crashed : Outcome (Nat × Nat)) ≠ .err .InvalidRange := by decide

/-- C5 (amended): every range shape outside the valid cases — `{first, last}`
with `first > last`, `{first, no last}` with `first ≥ size`, or a suffix of
length 0 — makes `get_offset_length` hit the `unreachable!` arm: the
computation panics instead of returning an `InvalidRange` error result. -/
theorem get_offset_length_invalid_crashes (r : HTTPRangeSpec) (size : Nat)
    (h : (∃ s e, r.start = some s ∧ r.stop = some e ∧ e < s)
       ∨ (∃ s, r.start = some s ∧ r.stop = none ∧ size ≤ s)
       ∨ (r.start = none ∧ r.stop = some 0)) :
    get_offset_length r size = .crashed := by
  obtain ⟨st, sp⟩ := r
  rcases h with ⟨s, e, h1, h2, h3⟩ | ⟨s, h1, h2, h3⟩ | ⟨h1, h2⟩ <;>
    simp only at h1 h2 <;> subst h1 <;> subst h2 <;>
    simp only [get_offset_length]
  · rw [if_neg (by omega)]
  · rw [if_neg (by omega)]
  · simp

/-- C5 witness: the amended theorem applied at `{first := 7, no last}` with
`size = 4`. -/
theorem get_offset_length_invalid_crashes_witness :
    get_offset_length ⟨some 7, none⟩ 4 = .crashed :=
  get_offset_length_invalid_crashes ⟨some 7, none⟩ 4 (Or.inr (Or.inl ⟨7, rfl, rfl, by decide⟩))

end BasinS3

namespace BasinS3

/-! ## Shared utilities (`src/lib/basin_s3/src/utils.rs`, `bucket.rs`,
`basin.rs`) -/

/-- One lowercase hexadecimal digit. -/
def hexDigitChar (n : Nat) : Char :=
  if n < 10 then Char.ofNat (48 + n) else Char.ofNat (87 + n)

/-- Lowercase hex of one byte. -/
def hexByte (b : Nat) : String :=
  ⟨[hexDigitChar (b / 16 % 16), hexDigitChar (b % 16)]⟩

/-- `utils::hex`: lowercase hexadecimal rendering of a byte string
(`hex_simd::encode_to_string(_, AsciiCase::Lower)`). -/
def hex (bytes : List Nat) : String := String.join (bytes.map hexByte)

/-- UTF-8 encoding of one scalar value (how Rust lays out `str` bytes). -/
def charUtf8 (c : Char) : List Nat :=
  let n := c.toNat
  if n < 128 then [n]
  else if n < 2048 then [192 + n / 64, 128 + n % 64]
  else if n < 65536 then [224 + n / 4096, 128 + n / 64 % 64, 128 + n % 64]
  else [240 + n / 262144, 128 + n / 4096 % 64, 128 + n / 64 % 64, 128 + n % 64]

/-- The byte view of a Rust `&str`. -/
def utf8Bytes (s : String) : List Nat := (s.data.map charUtf8).flatten

/-- First-match lookup in a metadata map (`HashMap::get`). -/
def lookupMeta (m : List (String × String)) (k : String) : Option String :=
  match m with
  | [] => none
  | (k2, v) :: rest => if k2 = k then some v else lookupMeta rest k

/-- `HashMap::insert`: replace the binding of `k` if present, else add it. -/
def metaInsert (m : List (String × String)) (k v : String) : List (String × String) :=
  if m.any (fun p => p.1 = k) then m.map (fun p => if p.1 = k then (k, v) else p)
  else m ++ [(k, v)]

/-- The user-metadata merge in `put_object`: each user pair is inserted over
the gateway pairs (user values win on key collision). -/
def metaInsertAll (m : List (String × String)) (user : Option (List (String × String))) :
    List (String × String) :=
  match user with
  | none => m
  | some ps => ps.foldl (fun acc p => metaInsert acc p.1 p.2) m

/-- Helper for `splitOnDot`: accumulate the current segment (reversed). -/
def splitOnDotAux : List Char → List Char → List String
  | [], acc => [String.mk acc.reverse]
  | c :: cs, acc =>
    if c = '.' then String.mk acc.reverse :: splitOnDotAux cs []
    else splitOnDotAux cs (c :: acc)

/-- Rust `str::split(".").collect::<Vec<_>>()`: the `'.'`-separated segments
of the string, empty segments included. -/
def splitOnDot (s : String) : List String := splitOnDotAux s.data []

/-- Rust `parts[1..].join(".")`. -/
def joinDot : List String → String
  | [] => ""
  | [s] => s
  | s :: rest => s ++ "." ++ joinDot rest

/-- `BucketNameWithOwner { name, owner }` with the backend address as an
abstract identifier. -/
structure BucketNameWithOwner where
  name : String
  owner : Nat
  deriving DecidableEq, Repr

/-- `BucketNameWithOwner::from` (bucket.rs lines 13-30): split on `"."`,
require an address prefix, parse it with the external `ethers` parser
(`ethParse`) and convert with `ethers_address_to_fil_address` (`ethToFil`),
both surfacing their message as `Custom`; the remainder joined with `"."`
must pass `check_bucket_name`. -/
def BucketNameWithOwner_from (ethParse : String → Except String Nat)
    (ethToFil : Nat → Except String Nat) (bucketName : String) :
    Outcome BucketNameWithOwner :=
  let parts := splitOnDot bucketName
  if parts.length ≤ 1 then .err .InvalidBucketName
  else
    match ethParse (parts.headD "") with
    | .error e => .err (.Custom e)
    | .ok addr =>
      match ethToFil addr with
      | .error e => .err (.Custom e)
      | .ok owner =>
        let name := joinDot (parts.drop 1)
        if check_bucket_name (utf8Bytes name) then .ok ⟨name, owner⟩
        else .err .InvalidBucketName

/-- One entry of the backend's bucket list (`hoku_sdk` machine metadata). -/
structure BucketItem where
  address : Nat
  metadata : List (String × String)
  deriving DecidableEq, Repr

/-- The linear alias scan inside `get_bucket_address_by_alias`: first bucket
whose `alias` metadata equals the requested name. -/
def findAlias : List BucketItem → String → Option Nat
  | [], _ => none
  | it :: rest, a =>
    match lookupMeta it.metadata "alias" with
    | some v => if v = a then some it.address else findAlias rest a
    | none => findAlias rest a

/-- `Basin::get_bucket_address_by_alias` (basin.rs lines 78-97) over the
result of the external `Bucket::list` RPC. -/
def get_bucket_address_by_alias (listResult : Except String (List BucketItem))
    (name : String) : Outcome (Option Nat) :=
  match listResult with
  | .error e => .err (.Custom e)
  | .ok items => .ok (findAlias items name)

/-- Backend object state: `{ size, metadata }`. -/
structure ObjectState where
  size : Nat
  metadata : List (String × String)
  deriving DecidableEq, Repr

/-- `Basin::get_object` (basin.rs lines 54-77): first entry of the
prefix-query result; a missing entry or a `None` state is `NoSuchKey`. -/
def basin_get_object (queryResult : Except String (List (List Nat × Option ObjectState))) :
    Outcome ObjectState :=
  match queryResult with
  | .error e => .err (.Custom e)
  | .ok objs =>
    match objs.head? with
    | some (_, some ob) => .ok ob
    | some (_, none) => .err .NoSuchKey
    | none => .err .NoSuchKey

/-! ## Body streams -/

/-- `put_object`'s body loop `while let Some(Ok(v)) = body.next().await`:
consume chunks up to (and silently dropping) the first stream error. -/
def putConsume : List (Except String (List Nat)) → List (List Nat)
  | [] => []
  | .ok v :: rest => v :: putConsume rest
  | .error _ :: _ => []

/-- `utils::copy_bytes` (utils.rs lines 18-34): concatenate the chunks,
propagating the first stream error. -/
def copy_bytes : List (Except String (List Nat)) → Except String (List Nat)
  | [] => .ok []
  | .ok v :: rest =>
    match copy_bytes rest with
    | .ok bs => .ok (v ++ bs)
    | .error e => .error e
  | .error e :: _ => .error e

end BasinS3

namespace BasinS3

/-! ## Mutating verbs (`src/lib/basin_s3/src/s3.rs`).

Each handler takes its external collaborators as function parameters, in the
order the source calls them.  `ethParse`/`ethToFil` model the address parsing
used by `BucketNameWithOwner::from`; `bucketList` models `Bucket::list`
keyed by the owner; `attach` models `Bucket::attach`; transaction submitters
(`addFromPath`, `addReader`, `del`, `bucketNew`) return the backend's error
message on failure, which the handlers surface as `Custom`. -/

structure PutObjectOutput where
  e_tag : Option String
  deriving DecidableEq, Repr

/-- `put_object` (s3.rs lines 860-946): read-only gate, bucket parse, alias
resolution, body requirement, attach, the hashing copy loop (which stops at
the first stream error without failing), wallet, ETag, metadata merge,
`add_from_path`. -/
def put_object {W : Type} (g : Gateway W) (md5 : List Nat → List Nat)
    (ethParse : String → Except String Nat) (ethToFil : Nat → Except String Nat)
    (bucketList : Nat → Except String (List BucketItem))
    (attach : Nat → Except String Unit)
    (addFromPath : Nat → W → String → List Nat → List (String × String) → Except String Unit)
    (now : Nat) (bucket key : String) (body : Option (List (Except String (List Nat))))
    (userMetadata : Option (List (String × String))) : Outcome PutObjectOutput :=
  if g.is_read_only then .err .NotImplemented
  else
    match BucketNameWithOwner_from ethParse ethToFil bucket with
    | .err e => .err e
    | .crashed => .crashed
    | .ok b =>
      match get_bucket_address_by_alias (bucketList b.owner) b.name with
      | .err e => .err e
      | .crashed => .crashed
      | .ok none => .err .NoSuchBucket
      | .ok (some address) =>
        match body with
        | none => .err .IncompleteBody
        | some stream =>
          match attach address with
          | .error e => .err (.Custom e)
          | .ok () =>
            let fileBytes := (putConsume stream).flatten
            match g.wallet with
            | none => .crashed
            | some w =>
              let e_tag := "\"" ++ hex (md5 fileBytes) ++ "\""
              let metadata := metaInsertAll
                [("last_modified", toString now), ("etag", e_tag)] userMetadata
              match addFromPath address w key fileBytes metadata with
              | .error e => .err (.Custom e)
              | .ok () => .ok ⟨some e_tag⟩

structure UploadPartOutput where
  e_tag : Option String
  deriving DecidableEq, Repr

/-- `upload_part` (s3.rs lines 948-987): read-only gate, body requirement,
UUID parse, part-file creation, `copy_bytes` (whose stream error becomes an
`InternalError` via `From<Error> for S3Error`), ETag of the hashed chunks.
Returns the outcome and the staging root (file names) after the call. -/
def upload_part {W : Type} (g : Gateway W) (md5 : List Nat → List Nat)
    (uuidParse : String → Option String) (uploadIdRaw : String) (partNumber : Int)
    (body : Option (List (Except String (List Nat)))) (files : List String) :
    Outcome UploadPartOutput × List String :=
  if g.is_read_only then (.err .NotImplemented, files)
  else
    match body with
    | none => (.err .IncompleteBody, files)
    | some stream =>
      match uuidParse uploadIdRaw with
      | none => (.err .InvalidRequest, files)
      | some u =>
        let path := get_upload_part_path u partNumber
        let files2 := if path ∈ files then files else files ++ [path]
        match copy_bytes stream with
        | .error _ => (.err .InternalError, files2)
        | .ok bytes => (.ok ⟨some ("\"" ++ hex (md5 bytes) ++ "\"")⟩, files2)

structure CompletedPart where
  part_number : Option Int
  deriving DecidableEq, Repr

structure CompletedMultipartUpload where
  parts : Option (List CompletedPart)
  deriving DecidableEq, Repr

/-- The part loop of `complete_multipart_upload` (s3.rs lines 161-178):
check the part number against the running counter (`cnt + 1`), open the part
file (`InternalError` when missing), append its bytes to the composed file,
record its contents for the MD5-of-MD5s, and delete the part file before the
next iteration.  Returns the staging root after the loop and, on success,
the consumed parts' contents in order together with the final counter. -/
def completeParts (contents : String → List Nat) (u : String) :
    List CompletedPart → List String → Int → List String × Outcome (List (List Nat) × Int)
  | [], files, cnt => (files, .ok ([], cnt))
  | p :: ps, files, cnt =>
    match p.part_number with
    | none => (files, .err .InvalidRequest)
    | some pn =>
      if pn = cnt + 1 then
        let path := get_upload_part_path u pn
        if path ∈ files then
          let r := completeParts contents u ps (files.erase path) (cnt + 1)
          (r.1,
            match r.2 with
            | .ok (cs, c) => .ok (contents path :: cs, c)
            | .err e => .err e
            | .crashed => .crashed)
        else (files, .err .InternalError)
      else (files, .err .InvalidRequest)

structure CompleteMultipartUploadOutput where
  e_tag : Option String
  bucket : Option String
  key : Option String
  deriving DecidableEq, Repr

/-- `complete_multipart_upload` (s3.rs lines 131-227): read-only gate,
bucket parse, `InvalidPart` when the upload body is absent, UUID parse, the
part loop, the `"<md5(concat part digests)>-<cnt>"` ETag, wallet, alias
resolution, attach, `add_from_path` of the composed file. -/
def complete_multipart_upload {W : Type} (g : Gateway W) (md5 : List Nat → List Nat)
    (ethParse : String → Except String Nat) (ethToFil : Nat → Except String Nat)
    (uuidParse : String → Option String)
    (bucketList : Nat → Except String (List BucketItem))
    (attach : Nat → Except String Unit)
    (addFromPath : Nat → W → String → List Nat → List (String × String) → Except String Unit)
    (now : Nat) (contents : String → List Nat) (files : List String)
    (bucket key uploadIdRaw : String)
    (multipartUpload : Option CompletedMultipartUpload) :
    Outcome CompleteMultipartUploadOutput × List String :=
  if g.is_read_only then (.err .NotImplemented, files)
  else
    match BucketNameWithOwner_from ethParse ethToFil bucket with
    | .err e => (.err e, files)
    | .crashed => (.crashed, files)
    | .ok b =>
      match multipartUpload with
      | none => (.err .InvalidPart, files)
      | some mu =>
        match uuidParse uploadIdRaw with
        | none => (.err .InvalidRequest, files)
        | some u =>
          let r := completeParts contents u (mu.parts.getD []) files 0
          match r.2 with
          | .err e => (.err e, r.1)
          | .crashed => (.crashed, r.1)
          | .ok (cs, cnt) =>
            let e_tag := "\"" ++ hex (md5 (cs.map md5).flatten) ++ "-" ++ toString cnt ++ "\""
            match g.wallet with
            | none => (.crashed, r.1)
            | some w =>
              match get_bucket_address_by_alias (bucketList b.owner) b.name with
              | .err e => (.err e, r.1)
              | .crashed => (.crashed, r.1)
              | .ok none => (.err .NoSuchBucket, r.1)
              | .ok (some address) =>
                match attach address with
                | .error e => (.err (.Custom e), r.1)
                | .ok () =>
                  match addFromPath address w key cs.flatten
                      [("last_modified", toString now), ("etag", e_tag)] with
                  | .error e => (.err (.Custom e), r.1)
                  | .ok () => (.ok ⟨some e_tag, some b.name, some key⟩, r.1)

/-- The key loop of `delete_objects` (s3.rs lines 506-518): one delete
transaction per key, sequential and awaited; the first failure returns
immediately.  Also returns the list of keys actually submitted. -/
def delete_objects_loop {β : Type} (del : β → String → Except String β) (b : β) :
    List String → List String × Except String β
  | [] => ([], .ok b)
  | k :: ks =>
    match del b k with
    | .error e => ([k], .error e)
    | .ok b2 =>
      let r := delete_objects_loop del b2 ks
      (k :: r.1, r.2)

/-- `delete_objects` (s3.rs lines 482-523): read-only gate, bucket parse,
alias resolution, attach, wallet, then the sequential key loop; a failing
delete surfaces as `Custom(<backend message>)`.  Returns the outcome and the
submitted-key trace. -/
def delete_objects {W β : Type} (g : Gateway W)
    (ethParse : String → Except String Nat) (ethToFil : Nat → Except String Nat)
    (bucketList : Nat → Except String (List BucketItem))
    (attach : Nat → Except String Unit)
    (del : β → String → Except String β) (backend : β)
    (bucket : String) (objects : List String) : Outcome Unit × List String :=
  if g.is_read_only then (.err .NotImplemented, [])
  else
    match BucketNameWithOwner_from ethParse ethToFil bucket with
    | .err e => (.err e, [])
    | .crashed => (.crashed, [])
    | .ok b =>
      match get_bucket_address_by_alias (bucketList b.owner) b.name with
      | .err e => (.err e, [])
      | .crashed => (.crashed, [])
      | .ok none => (.err .NoSuchBucket, [])
      | .ok (some address) =>
        match attach address with
        | .error e => (.err (.Custom e), [])
        | .ok () =>
          match g.wallet with
          | none => (.crashed, [])
          | some _w =>
            let r := delete_objects_loop del backend objects
            match r.2 with
            | .error e => (.err (.Custom e), r.1)
            | .ok _ => (.ok (), r.1)

/-- `delete_object` (s3.rs lines 438-479): the single-key variant. -/
def delete_object {W β : Type} (g : Gateway W)
    (ethParse : String → Except String Nat) (ethToFil : Nat → Except String Nat)
    (bucketList : Nat → Except String (List BucketItem))
    (attach : Nat → Except String Unit)
    (del : β → String → Except String β) (backend : β)
    (bucket key : String) : Outcome Unit :=
  if g.is_read_only then .err .NotImplemented
  else
    match BucketNameWithOwner_from ethParse ethToFil bucket with
    | .err e => .err e
    | .crashed => .crashed
    | .ok b =>
      match get_bucket_address_by_alias (bucketList b.owner) b.name with
      | .err e => .err e
      | .crashed => .crashed
      | .ok none => .err .NoSuchBucket
      | .ok (some address) =>
        match attach address with
        | .error e => .err (.Custom e)
        | .ok () =>
          match g.wallet with
          | none => .crashed
          | some _w =>
            match del backend key with
            | .error e => .err (.Custom e)
            | .ok _ => .ok ()

structure CreateBucketOutput where
  location : Option String
  deriving DecidableEq, Repr

/-- `create_bucket` (s3.rs lines 348-408): read-only gate, name grammar,
wallet, the wallet's EVM address is rendered (`evmHex`) and prepended, alias
must not resolve (`BucketAlreadyExists`), then `Bucket::new` with
`{creation_date, alias}` metadata. -/
def create_bucket {W : Type} (g : Gateway W)
    (ethParse : String → Except String Nat) (ethToFil : Nat → Except String Nat)
    (walletEvmAddr : W → Except String Nat) (evmHex : Nat → String)
    (bucketList : Nat → Except String (List BucketItem))
    (bucketNew : W → List (String × String) → Except String Nat) (addrStr : Nat → String)
    (now : Nat) (bucket : String) : Outcome CreateBucketOutput :=
  if g.is_read_only then .err .NotImplemented
  else if !(check_bucket_name (utf8Bytes bucket)) then .err .InvalidBucketName
  else
    match g.wallet with
    | none => .crashed
    | some w =>
      match walletEvmAddr w with
      | .error e => .err (.Custom e)
      | .ok ethAddr =>
        match BucketNameWithOwner_from ethParse ethToFil (evmHex ethAddr ++ "." ++ bucket) with
        | .err e => .err e
        | .crashed => .crashed
        | .ok b =>
          match get_bucket_address_by_alias (bucketList b.owner) b.name with
          | .err e => .err e
          | .crashed => .crashed
          | .ok (some _) => .err .BucketAlreadyExists
          | .ok none =>
            match bucketNew w [("creation_date", toString now), ("alias", b.name)] with
            | .error e => .err (.Custom e)
            | .ok address => .ok ⟨some (addrStr address)⟩

structure CreateMultipartUploadOutput where
  bucket : Option String
  key : Option String
  upload_id : Option String
  deriving DecidableEq, Repr

/-- `create_multipart_upload` (s3.rs lines 411-435): read-only gate, then a
fresh UUID (`uuidNew`) with no server-side record. -/
def create_multipart_upload {W : Type} (g : Gateway W) (uuidNew : String)
    (bucket key : String) : Outcome CreateMultipartUploadOutput :=
  if g.is_read_only then .err .NotImplemented
  else .ok ⟨some bucket, some key, some uuidNew⟩

/-- `CopySource`: bucket-and-key form or the (unimplemented) access-point
form. -/
inductive CopySource where
  | accessPoint
  | bucket (bucket : String) (key : String)

structure CopyObjectOutput where
  last_modified : Option Nat
  deriving DecidableEq, Repr

/-- `copy_object` (s3.rs lines 230-345).  Faithful to the source, this
handler has NO read-only gate: it parses both buckets, resolves and attaches
the source, fetches the source object, downloads it to a temp file
(`download`; a local copy failure is `try_!` → `InternalError`), and only
then matches on the wallet — `None => unreachable!()`, modelled as
`crashed` — before resolving the destination and calling `add_reader` with
the source's `etag` metadata (`Custom "no etag"` when absent). -/
def copy_object {W : Type} (g : Gateway W)
    (ethParse : String → Except String Nat) (ethToFil : Nat → Except String Nat)
    (bucketList : Nat → Except String (List BucketItem))
    (attach : Nat → Except String Unit)
    (query : Nat → String → Except String (List (List Nat × Option ObjectState)))
    (download : Nat → String → Except String (List Nat))
    (addReader : Nat → W → String → List Nat → List (String × String) → Except String Unit)
    (now : Nat) (copySource : CopySource) (dstBucket dstKey : String) :
    Outcome CopyObjectOutput :=
  match copySource with
  | .accessPoint => .err .NotImplemented
  | .bucket srcBucketRaw srcKey =>
    match BucketNameWithOwner_from ethParse ethToFil srcBucketRaw with
    | .err e => .err e
    | .crashed => .crashed
    | .ok srcB =>
      match BucketNameWithOwner_from ethParse ethToFil dstBucket with
      | .err e => .err e
      | .crashed => .crashed
      | .ok dstB =>
        match get_bucket_address_by_alias (bucketList srcB.owner) srcB.name with
        | .err e => .err e
        | .crashed => .crashed
        | .ok none => .err .NoSuchBucket
        | .ok (some srcAddress) =>
          match attach srcAddress with
          | .error e => .err (.Custom e)
          | .ok () =>
            match basin_get_object (query srcAddress srcKey) with
            | .err e => .err e
            | .crashed => .crashed
            | .ok srcObject =>
              match download srcAddress srcKey with
              | .error _ => .err .InternalError
              | .ok fileBytes =>
                match g.wallet with
                | none => .crashed
                | some w =>
                  match get_bucket_address_by_alias (bucketList dstB.owner) dstB.name with
                  | .err e => .err e
                  | .crashed => .crashed
                  | .ok none => .err .NoSuchBucket
                  | .ok (some dstAddress) =>
                    match attach dstAddress with
                    | .error e => .err (.Custom e)
                    | .ok () =>
                      match lookupMeta srcObject.metadata "etag" with
                      | none => .err (.Custom "no etag")
                      | some e_tag =>
                        match addReader dstAddress w dstKey fileBytes
                            [("last_modified", toString now), ("etag", e_tag)] with
                        | .error e => .err (.Custom e)
                        | .ok () => .ok ⟨some now⟩

end BasinS3

namespace BasinS3

/-! ## Read verbs used by C10 (`get_object`, `head_object`, `list_buckets`,
`list_objects_v2`).  `tsParse` models the external
`Timestamp::parse(TimestampFormat::EpochSeconds, _)`, returning `none` when
the stored string is not parseable as decimal epoch seconds; the source
calls `.unwrap()` on it, modelled as `crashed`. -/

/-- An S3 `Range` request as the handler receives it. -/
inductive S3Range where
  | int (first : Nat) (last : Option Nat)
  | suffix (length : Nat)

/-- `fmt_content_range` (s3.rs lines 1002-1004). -/
def fmt_content_range (start endInclusive size : Nat) : String :=
  "bytes " ++ toString start ++ "-" ++ toString endInclusive ++ "/" ++ toString size

structure GetObjectOutput where
  content_length : Option Nat
  e_tag : Option String
  content_range : Option String
  last_modified : Option Nat
  deriving DecidableEq, Repr

/-- `get_object` (s3.rs lines 526-608): bucket parse, alias resolution,
attach, single-object query, `range.check` (the external s3s check is
`rangeCheck`, yielding the half-open window or an error), `i64` conversion
of the content length, then `last_modified` via
`tsParse(..).unwrap()` — `crashed` when the stored value is present but
unparseable — and the `etag` metadata passthrough. -/
def get_object_verb {W : Type} (_g : Gateway W)
    (ethParse : String → Except String Nat) (ethToFil : Nat → Except String Nat)
    (bucketList : Nat → Except String (List BucketItem))
    (attach : Nat → Except String Unit)
    (query : Nat → String → Except String (List (List Nat × Option ObjectState)))
    (rangeCheck : S3Range → Nat → Except S3ErrCode (Nat × Nat))
    (tsParse : String → Option Nat)
    (bucket key : String) (range : Option S3Range) : Outcome GetObjectOutput :=
  match BucketNameWithOwner_from ethParse ethToFil bucket with
  | .err e => .err e
  | .crashed => .crashed
  | .ok b =>
    match get_bucket_address_by_alias (bucketList b.owner) b.name with
    | .err e => .err e
    | .crashed => .crashed
    | .ok none => .err .NoSuchBucket
    | .ok (some address) =>
      match attach address with
      | .error e => .err (.Custom e)
      | .ok () =>
        match basin_get_object (query address key) with
        | .err e => .err e
        | .crashed => .crashed
        | .ok object =>
          let fileLen := object.size
          match (match range with
                 | none => Except.ok (fileLen, (none : Option String))
                 | some r =>
                   match rangeCheck r fileLen with
                   | .error e => .error e
                   | .ok (s, e) => .ok (e - s, some (fmt_content_range s (e - 1) fileLen))) with
          | .error e => .err e
          | .ok (contentLength, contentRange) =>
            if contentLength < 2 ^ 63 then
              match lookupMeta object.metadata "last_modified" with
              | some v =>
                match tsParse v with
                | none => .crashed
                | some t =>
                  .ok ⟨some contentLength, lookupMeta object.metadata "etag", contentRange,
                    some t⟩
              | none =>
                .ok ⟨some contentLength, lookupMeta object.metadata "etag", contentRange, none⟩
            else .err .InternalError

structure HeadObjectOutput where
  content_length : Option Nat
  content_type : Option String
  last_modified : Option Nat
  deriving DecidableEq, Repr

/-- `head_object` (s3.rs lines 630-681): bucket parse, alias resolution,
attach, prefix query (`queryHead`, whose entries carry the state directly),
first entry or `NoSuchKey`, `i64` size conversion, fixed content type, and
`last_modified` via `tsParse(..).unwrap()`. -/
def head_object {W : Type} (_g : Gateway W)
    (ethParse : String → Except String Nat) (ethToFil : Nat → Except String Nat)
    (bucketList : Nat → Except String (List BucketItem))
    (attach : Nat → Except String Unit)
    (queryHead : Nat → String → Except String (List (List Nat × ObjectState)))
    (tsParse : String → Option Nat)
    (bucket key : String) : Outcome HeadObjectOutput :=
  match BucketNameWithOwner_from ethParse ethToFil bucket with
  | .err e => .err e
  | .crashed => .crashed
  | .ok b =>
    match get_bucket_address_by_alias (bucketList b.owner) b.name with
    | .err e => .err e
    | .crashed => .crashed
    | .ok none => .err .NoSuchBucket
    | .ok (some address) =>
      match attach address with
      | .error e => .err (.Custom e)
      | .ok () =>
        match queryHead address key with
        | .error e => .err (.Custom e)
        | .ok objs =>
          match objs.head? with
          | none => .err .NoSuchKey
          | some (_, objectState) =>
            if objectState.size < 2 ^ 63 then
              match lookupMeta objectState.metadata "last_modified" with
              | some v =>
                match tsParse v with
                | none => .crashed
                | some t =>
                  .ok ⟨some objectState.size, some "application/octet-stream", some t⟩
              | none => .ok ⟨some objectState.size, some "application/octet-stream", none⟩
            else .err .InternalError

structure BucketOut where
  name : Option String
  creation_date : Option Nat
  deriving DecidableEq, Repr

/-- The bucket loop of `list_buckets` (s3.rs lines 706-723): `creation_date`
via `tsParse(..).unwrap()`, name from the `alias` metadata with the address
rendering as fallback. -/
def list_buckets_loop (tsParse : String → Option Nat) (addrStr : Nat → String) :
    List BucketItem → Outcome (List BucketOut)
  | [] => .ok []
  | it :: rest =>
    match (match lookupMeta it.metadata "creation_date" with
           | none => Outcome.ok none
           | some v =>
             match tsParse v with
             | none => Outcome.crashed
             | some t => Outcome.ok (some t)) with
    | .crashed => .crashed
    | .err e => .err e
    | .ok creationDate =>
      let name := match lookupMeta it.metadata "alias" with
                  | some v => some v
                  | none => some (addrStr it.address)
      match list_buckets_loop tsParse addrStr rest with
      | .ok outs => .ok (⟨name, creationDate⟩ :: outs)
      | .err e => .err e
      | .crashed => .crashed

/-- `list_buckets` (s3.rs lines 684-731): read-only gate, wallet,
`Bucket::list` with the wallet signer, then the bucket loop. -/
def list_buckets {W : Type} (g : Gateway W)
    (bucketListWallet : W → Except String (List BucketItem))
    (tsParse : String → Option Nat) (addrStr : Nat → String) :
    Outcome (List BucketOut) :=
  if g.is_read_only then .err .NotImplemented
  else
    match g.wallet with
    | none => .crashed
    | some w =>
      match bucketListWallet w with
      | .error e => .err (.Custom e)
      | .ok items => list_buckets_loop tsParse addrStr items

structure ObjectOut where
  key : Option String
  last_modified : Option Nat
  size : Option Nat
  deriving DecidableEq, Repr

/-- The object loop of `list_objects_v2` (s3.rs lines 810-824):
`last_modified` via `tsParse(..).unwrap()`, `i64` size conversion, key
rendered with `String::from_utf8_lossy` (`utf8Lossy`). -/
def list_v2_objects_loop (tsParse : String → Option Nat) (utf8Lossy : List Nat → String) :
    List (List Nat × ObjectState) → Outcome (List ObjectOut)
  | [] => .ok []
  | (k, st) :: rest =>
    match (match lookupMeta st.metadata "last_modified" with
           | none => Outcome.ok none
           | some v =>
             match tsParse v with
             | none => Outcome.crashed
             | some t => Outcome.ok (some t)) with
    | .crashed => .crashed
    | .err e => .err e
    | .ok lm =>
      if st.size < 2 ^ 63 then
        match list_v2_objects_loop tsParse utf8Lossy rest with
        | .ok outs => .ok (⟨some (utf8Lossy k), lm, some st.size⟩ :: outs)
        | .err e => .err e
        | .crashed => .crashed
      else .err .InternalError

/-- The backend's paged query response (`hoku_sdk` `machine.query`). -/
structure QueryResponse where
  objects : List (List Nat × ObjectState)
  common_prefixes : List (List Nat)
  next_key : Option (List Nat)

structure ListObjectsV2Output where
  key_count : Option Nat
  max_keys : Option Nat
  contents : Option (List ObjectOut)
  common_prefixes : Option (List String)
  name : Option String
  is_truncated : Option Bool
  next_continuation_token : Option String
  deriving DecidableEq, Repr

/-- Conversion of the common-prefix byte strings with `String::from_utf8`
(`utf8Strict`), whose failure is `try_!` → `InternalError`. -/
def commonPrefixesOut (utf8Strict : List Nat → Option String) :
    List (List Nat) → Outcome (List String)
  | [] => .ok []
  | p :: rest =>
    match utf8Strict p with
    | none => .err .InternalError
    | some s =>
      match commonPrefixesOut utf8Strict rest with
      | .ok outs => .ok (s :: outs)
      | .err e => .err e
      | .crashed => .crashed

/-- `list_objects_v2` (s3.rs lines 757-857): bucket parse, alias resolution,
attach, defaulted `prefix`/`delimiter`, `max_keys` clamped to 1000
(negative values fall back to 1000 via `try_into().unwrap_or`), the
continuation token as raw start key, the backend query (`queryList`), the
object loop, common prefixes, counts and the next token. -/
def list_objects_v2 {W : Type} (_g : Gateway W)
    (ethParse : String → Except String Nat) (ethToFil : Nat → Except String Nat)
    (bucketList : Nat → Except String (List BucketItem))
    (attach : Nat → Except String Unit)
    (queryList : Nat → String → String → Option (List Nat) → Nat → Except String QueryResponse)
    (tsParse : String → Option Nat) (utf8Lossy : List Nat → String)
    (utf8Strict : List Nat → Option String)
    (bucket : String) (keyPfx : Option String) (delimiter : Option String)
    (maxKeys : Option Int) (continuationToken : Option String) :
    Outcome ListObjectsV2Output :=
  match BucketNameWithOwner_from ethParse ethToFil bucket with
  | .err e => .err e
  | .crashed => .crashed
  | .ok b =>
    match get_bucket_address_by_alias (bucketList b.owner) b.name with
    | .err e => .err e
    | .crashed => .crashed
    | .ok none => .err .NoSuchBucket
    | .ok (some address) =>
      match attach address with
      | .error e => .err (.Custom e)
      | .ok () =>
        let pfxStr := keyPfx.getD ""
        let delimiterStr := delimiter.getD ""
        let limit := min (match maxKeys with
                          | none => 1000
                          | some v => if v < 0 then 1000 else v.toNat) 1000
        let startKey := continuationToken.map utf8Bytes
        match queryList address pfxStr delimiterStr startKey limit with
        | .error e => .err (.Custom e)
        | .ok response =>
          match list_v2_objects_loop tsParse utf8Lossy response.objects with
          | .err e => .err e
          | .crashed => .crashed
          | .ok objects =>
            match commonPrefixesOut utf8Strict response.common_prefixes with
            | .err e => .err e
            | .crashed => .crashed
            | .ok commonPrefixes =>
              if objects.length < 2 ^ 31 then
                let nextToken := response.next_key.map utf8Lossy
                .ok ⟨some objects.length, some 1000, some objects, some commonPrefixes,
                  some b.name, some nextToken.isSome, nextToken⟩
              else .err .InternalError

end BasinS3

namespace BasinS3

/-! ## Supporting lemmas about the loops -/

/-- The put-object loop consumes an all-ok stream entirely. -/
theorem putConsume_all_ok (chunks : List (List Nat)) :
    putConsume (chunks.map Except.ok) = chunks := by
  induction chunks with
  | nil => rfl
  | cons c cs ih => simp [putConsume, ih]

/-- The put-object loop consumes exactly the ok-prefix and silently drops
the stream error and everything after it. -/
theorem putConsume_ok_then_error (chunks : List (List Nat)) (e : String)
    (rest : List (Except String (List Nat))) :
    putConsume (chunks.map Except.ok ++ Except.error e :: rest) = chunks := by
  induction chunks with
  | nil => rfl
  | cons c cs ih => simp [putConsume, ih]

/-- `copy_bytes` propagates the first stream error. -/
theorem copy_bytes_ok_then_error (chunks : List (List Nat)) (e : String)
    (rest : List (Except String (List Nat))) :
    copy_bytes (chunks.map Except.ok ++ Except.error e :: rest) = .error e := by
  induction chunks with
  | nil => rfl
  | cons c cs ih => simp [copy_bytes, ih]

/-- A delete loop that ends in success submitted every key. -/
theorem delete_objects_loop_ok_trace {β : Type} (del : β → String → Except String β)
    (b b2 : β) (ks : List String)
    (h : (delete_objects_loop del b ks).2 = .ok b2) :
    (delete_objects_loop del b ks).1 = ks := by
  induction ks generalizing b with
  | nil => rfl
  | cons k ks ih =>
    cases hd : del b k with
    | error e =>
      simp only [delete_objects_loop, hd] at h
      exact absurd h (by simp)
    | ok b3 =>
      simp only [delete_objects_loop, hd] at h ⊢
      simp only [List.cons.injEq, true_and]
      exact ih b3 h

/-- A delete loop that ends in failure stopped at the first failing key: the
submitted trace is the successful prefix plus that key, the keys after it
were never submitted, and the surfaced error is that delete's error. -/
theorem delete_objects_loop_error_decomp {β : Type} (del : β → String → Except String β)
    (b : β) (ks : List String) (e : String)
    (h : (delete_objects_loop del b ks).2 = .error e) :
    ∃ tr0 k rest b0, ks = tr0 ++ k :: rest ∧
      (delete_objects_loop del b tr0).2 = .ok b0 ∧ del b0 k = .error e ∧
      (delete_objects_loop del b ks).1 = tr0 ++ [k] := by
  induction ks generalizing b with
  | nil => exact absurd h (by simp [delete_objects_loop])
  | cons k ks ih =>
    cases hd : del b k with
    | error e2 =>
      simp only [delete_objects_loop, hd] at h ⊢
      cases h
      exact ⟨[], k, ks, b, rfl, rfl, hd, rfl⟩
    | ok b2 =>
      simp only [delete_objects_loop, hd] at h ⊢
      obtain ⟨tr0, k1, rest, b0, hks, hpre, hdel, htr⟩ := ih b2 h
      refine ⟨k :: tr0, k1, rest, b0, by simp [hks], ?_, hdel, ?_⟩
      · simp only [delete_objects_loop, hd]
        exact hpre
      · simp [htr]

/-- The ascending-part-number check of the completion loop, started at
counter `cnt`: the i-th remaining part must carry number `cnt + i + 1`. -/
def partsAscendingFrom (cnt : Int) : List CompletedPart → Bool
  | [] => true
  | p :: ps => p.part_number == some (cnt + 1) && partsAscendingFrom (cnt + 1) ps

/-- Bridge between the recursive check and the claim's indexed wording. -/
theorem partsAscendingFrom_iff (parts : List CompletedPart) : ∀ (cnt : Int),
    partsAscendingFrom cnt parts = true ↔
      ∀ i (hi : i < parts.length),
        (parts.get ⟨i, hi⟩).part_number = some (cnt + Int.ofNat i + 1) := by
  induction parts with
  | nil => intro cnt; simp [partsAscendingFrom]
  | cons p ps ih =>
    intro cnt
    simp only [partsAscendingFrom, Bool.and_eq_true, beq_iff_eq, ih (cnt + 1)]
    constructor
    · rintro ⟨hp, hrest⟩ i hi
      cases i with
      | zero => simpa using hp
      | succ j =>
        have hj : j < ps.length := by simpa using hi
        have := hrest j hj
        simp only [List.get] at this ⊢
        rw [this]
        congr 1
        simp [Int.ofNat_succ]
        ring
    · intro h
      refine ⟨by simpa using h 0 (by simp), fun j hj => ?_⟩
      have := h (j + 1) (by simpa using hj)
      simp only [List.get] at this ⊢
      rw [this]
      congr 1
      simp [Int.ofNat_succ]
      ring

/-- When the remaining parts fail the ascending check, the completion loop
returns `InvalidRequest` — unless it dies first on a missing part file
(`InternalError` from `fs::File::open`). -/
theorem completeParts_not_ascending (contents : String → List Nat) (u : String) :
    ∀ (parts : List CompletedPart) (files : List String) (cnt : Int),
    partsAscendingFrom cnt parts = false →
    (completeParts contents u parts files cnt).2 = .err .InvalidRequest ∨
    (completeParts contents u parts files cnt).2 = .err .InternalError := by
  intro parts
  induction parts with
  | nil => intro files cnt h; exact absurd h (by simp [partsAscendingFrom])
  | cons p ps ih =>
    intro files cnt h
    simp only [partsAscendingFrom, Bool.and_eq_false_iff] at h
    cases hpn : p.part_number with
    | none => left; simp [completeParts, hpn]
    | some pn =>
      by_cases hord : pn = cnt + 1
      · subst hord
        rcases h with h | h
        · rw [hpn] at h; simp at h
        · by_cases hmem : get_upload_part_path u (cnt + 1) ∈ files
          · have hsnd : (completeParts contents u (p :: ps) files cnt).2 =
                (match (completeParts contents u ps
                    (files.erase (get_upload_part_path u (cnt + 1))) (cnt + 1)).2 with
                 | Outcome.ok (cs, c) =>
                   Outcome.ok (contents (get_upload_part_path u (cnt + 1)) :: cs, c)
                 | Outcome.err e => Outcome.err e
                 | Outcome.crashed => Outcome.crashed) := by
              rw [completeParts, hpn]
              simp [hmem]
            rcases ih (files.erase (get_upload_part_path u (cnt + 1))) (cnt + 1) h with
              h2 | h2 <;> [left; right] <;> rw [hsnd, h2]
          · simp [completeParts, hpn, if_pos rfl, if_neg hmem]
      · left; simp [completeParts, hpn, if_neg hord]

/-- A successful completion loop run: the remaining parts passed the
ascending check, the final counter advanced by their number, the recorded
contents are the part files' bytes in order, and the staging root is the
input root with each consumed part file erased in consumption order. -/
theorem completeParts_ok_shape (contents : String → List Nat) (u : String) :
    ∀ (parts : List CompletedPart) (files : List String) (cnt : Int)
      (cs : List (List Nat)) (c : Int),
    (completeParts contents u parts files cnt).2 = .ok (cs, c) →
    partsAscendingFrom cnt parts = true ∧ c = cnt + Int.ofNat parts.length ∧
    cs = (List.range parts.length).map
      (fun j => contents (get_upload_part_path u (cnt + Int.ofNat j + 1))) ∧
    (completeParts contents u parts files cnt).1 =
      (List.range parts.length).foldl
        (fun fs j => fs.erase (get_upload_part_path u (cnt + Int.ofNat j + 1))) files := by
  intro parts
  induction parts with
  | nil =>
    intro files cnt cs c h
    simp only [completeParts] at h ⊢
    cases h
    simp [partsAscendingFrom]
  | cons p ps ih =>
    intro files cnt cs c h
    cases hpn : p.part_number with
    | none =>
      rw [completeParts] at h
      rw [hpn] at h
      exact absurd h (by simp)
    | some pn =>
      rw [completeParts] at h
      rw [hpn] at h
      simp only at h
      by_cases hord : pn = cnt + 1
      · subst hord
        rw [if_pos rfl] at h
        by_cases hmem : get_upload_part_path u (cnt + 1) ∈ files
        · rw [if_pos hmem] at h
          have hfst : (completeParts contents u (p :: ps) files cnt).1 =
              (completeParts contents u ps
                (files.erase (get_upload_part_path u (cnt + 1))) (cnt + 1)).1 := by
            rw [completeParts, hpn]
            simp [hmem]
          revert h
          cases hrec : (completeParts contents u ps
              (files.erase (get_upload_part_path u (cnt + 1))) (cnt + 1)).2 with
          | ok pair =>
            obtain ⟨cs2, c2⟩ := pair
            intro h
            simp only [Outcome.ok.injEq, Prod.mk.injEq] at h
            obtain ⟨hcs, hc⟩ := h
            obtain ⟨hasc, hcnt, hcs2, hfiles⟩ :=
              ih (files.erase (get_upload_part_path u (cnt + 1))) (cnt + 1) cs2 c2 hrec
            refine ⟨?_, ?_, ?_, ?_⟩
            · simp [partsAscendingFrom, hpn, hasc]
            · rw [← hc, hcnt]
              simp only [List.length_cons]
              simp only [Int.ofNat_eq_natCast]
              push_cast
              ring
            · rw [← hcs, hcs2]
              simp only [List.length_cons]
              rw [List.range_succ_eq_map]
              simp only [List.map_cons, List.map_map]
              have h0 : cnt + Int.ofNat 0 + 1 = cnt + 1 := by simp
              have hs : ∀ j : Nat, cnt + Int.ofNat (Nat.succ j) + 1 = cnt + 1 + Int.ofNat j + 1 := by
                intro j
                simp only [Int.ofNat_eq_natCast]
                push_cast
                ring
              simp only [h0]
              congr 1
              apply List.map_congr_left
              intro j hj
              simp only [Function.comp_apply]
              rw [hs j]
            · rw [hfst, hfiles]
              simp only [List.length_cons]
              rw [List.range_succ_eq_map]
              simp only [List.foldl_cons, List.foldl_map]
              have h0 : cnt + Int.ofNat 0 + 1 = cnt + 1 := by simp
              have hs : ∀ j : Nat, cnt + Int.ofNat (Nat.succ j) + 1 = cnt + 1 + Int.ofNat j + 1 := by
                intro j
                simp only [Int.ofNat_eq_natCast]
                push_cast
                ring
              simp only [h0, hs]
          | err e =>
            intro h
            exact absurd h (by simp)
          | crashed =>
            intro h
            exact absurd h (by simp)
        · rw [if_neg hmem] at h
          exact absurd h (by simp)
      · rw [if_neg hord] at h
        exact absurd h (by simp)

end BasinS3

namespace BasinS3

/-- C1: FAILS ON THE CODE for CopyObject.  A gateway built without a wallet
(`basinNew none`, hence `is_read_only`) answers `NotImplemented` to
CreateBucket, PutObject, DeleteObject, DeleteObjects, CreateMultipartUpload,
UploadPart, CompleteMultipartUpload and AbortMultipartUpload for every input,
touching no backend transaction (DeleteObjects submits no delete; staging is
untouched) — but `copy_object` has no read-only gate: on a bucket-form copy
source whose source bucket and object resolve, it performs the backend reads
and download and then panics at `unreachable!()` on the missing wallet
instead of returning `NotImplemented`. -/
theorem read_only_mode_mutating_verbs :
    (∀ (ethParse : String → Except String Nat) ethToFil walletEvmAddr evmHex bucketList
        bucketNew addrStr now bucket,
      create_bucket (basinNew (none : Option Unit)) ethParse ethToFil walletEvmAddr evmHex
        bucketList bucketNew addrStr now bucket = .err .NotImplemented)
    ∧ (∀ md5 (ethParse : String → Except String Nat) ethToFil bucketList attach addFromPath
        now bucket key body userMetadata,
      put_object (basinNew (none : Option Unit)) md5 ethParse ethToFil bucketList attach
        addFromPath now bucket key body userMetadata = .err .NotImplemented)
    ∧ (∀ (ethParse : String → Except String Nat) ethToFil bucketList attach del backend
        bucket key,
      delete_object (β := Unit) (basinNew (none : Option Unit)) ethParse ethToFil bucketList
        attach del backend bucket key = .err .NotImplemented)
    ∧ (∀ (ethParse : String → Except String Nat) ethToFil bucketList attach del backend
        bucket objects,
      delete_objects (β := Unit) (basinNew (none : Option Unit)) ethParse ethToFil bucketList
        attach del backend bucket objects = (.err .NotImplemented, []))
    ∧ (∀ uuidNew bucket key,
      create_multipart_upload (basinNew (none : Option Unit)) uuidNew bucket key
        = .err .NotImplemented)
    ∧ (∀ md5 uuidParse uploadIdRaw partNumber body files,
      upload_part (basinNew (none : Option Unit)) md5 uuidParse uploadIdRaw partNumber body
        files = (.err .NotImplemented, files))
    ∧ (∀ md5 (ethParse : String → Except String Nat) ethToFil uuidParse bucketList attach
        addFromPath now contents files bucket key uploadIdRaw multipartUpload,
      complete_multipart_upload (basinNew (none : Option Unit)) md5 ethParse ethToFil
        uuidParse bucketList attach addFromPath now contents files bucket key uploadIdRaw
        multipartUpload = (.err .NotImplemented, files))
    ∧ (∀ uuidParse uploadIdRaw entries,
      abort_multipart_upload (basinNew (none : Option Unit)) uuidParse uploadIdRaw entries
        = (.err .NotImplemented, entries))
    ∧ copy_object (basinNew (none : Option Unit))
        (fun _ => .ok 1) (fun a => .ok a)
        (fun _ => .ok [⟨5, [("alias", "foo")]⟩])
        (fun _ => .ok ())
        (fun _ _ => .ok [([107], some ⟨3, [("etag", "\"aa\"")]⟩)])
        (fun _ _ => .ok [1, 2, 3])
        (fun _ _ _ _ _ => .ok ())
        0 (.bucket "a.foo" "k") "a.foo" "k2" = .crashed := by
  refine ⟨?_, ?_, ?_, ?_, ?_, ?_, ?_, ?_, ?_⟩ <;> intros <;> rfl

end BasinS3

namespace BasinS3

/-- C2: a successful `PutObject` returns the ETag
`"<md5-hex(body)>"` over exactly the bytes received, and a successful
`CompleteMultipartUpload` over parts `P1..Pn` returns
`"<md5-hex(md5(P1) ‖ … ‖ md5(Pn))>-n"`, where `Pj` is the content of the
j-th part file and `md5` is the digest function of the external `md5`
crate. -/
theorem etag_single_put_and_multipart :
    (∀ (W : Type) (w : W) (md5 : List Nat → List Nat)
        (ethParse : String → Except String Nat) (ethToFil : Nat → Except String Nat)
        (bucketList : Nat → Except String (List BucketItem))
        (attach : Nat → Except String Unit)
        (addFromPath : Nat → W → String → List Nat → List (String × String) →
          Except String Unit)
        (now : Nat) (bucket key : String) (chunks : List (List Nat))
        (userMetadata : Option (List (String × String)))
        (b : BucketNameWithOwner) (address : Nat),
      BucketNameWithOwner_from ethParse ethToFil bucket = .ok b →
      get_bucket_address_by_alias (bucketList b.owner) b.name = .ok (some address) →
      attach address = .ok () →
      (∀ a ww k bs m, addFromPath a ww k bs m = Except.ok ()) →
      put_object (basinNew (some w)) md5 ethParse ethToFil bucketList attach addFromPath now
          bucket key (some (chunks.map Except.ok)) userMetadata
        = .ok ⟨some ("\"" ++ hex (md5 chunks.flatten) ++ "\"")⟩)
    ∧ (∀ (W : Type) (w : W) (md5 : List Nat → List Nat)
        (ethParse : String → Except String Nat) (ethToFil : Nat → Except String Nat)
        (uuidParse : String → Option String)
        (bucketList : Nat → Except String (List BucketItem))
        (attach : Nat → Except String Unit)
        (addFromPath : Nat → W → String → List Nat → List (String × String) →
          Except String Unit)
        (now : Nat) (contents : String → List Nat) (files : List String)
        (bucket key uploadIdRaw u : String) (b : BucketNameWithOwner) (address : Nat)
        (mu : CompletedMultipartUpload) (parts : List CompletedPart)
        (cs : List (List Nat)) (c : Int),
      BucketNameWithOwner_from ethParse ethToFil bucket = .ok b →
      uuidParse uploadIdRaw = some u →
      mu.parts = some parts →
      get_bucket_address_by_alias (bucketList b.owner) b.name = .ok (some address) →
      attach address = .ok () →
      (∀ a ww k bs m, addFromPath a ww k bs m = Except.ok ()) →
      (completeParts contents u parts files 0).2 = .ok (cs, c) →
      (complete_multipart_upload (basinNew (some w)) md5 ethParse ethToFil uuidParse
          bucketList attach addFromPath now contents files bucket key uploadIdRaw
          (some mu)).1
        = .ok ⟨some ("\"" ++
            hex (md5 (((List.range parts.length).map
              (fun j => md5 (contents (get_upload_part_path u (Int.ofNat j + 1))))).flatten))
            ++ "-" ++ toString (Int.ofNat parts.length) ++ "\""),
            some b.name, some key⟩) := by
  constructor
  · intro W w md5 ethParse ethToFil bucketList attach addFromPath now bucket key chunks
      userMetadata b address hparse hresolve hattach haf
    simp only [put_object, basinNew, Option.isNone_some, Bool.false_eq_true, if_false,
      hparse, hresolve, hattach, haf, putConsume_all_ok]
  · intro W w md5 ethParse ethToFil uuidParse bucketList attach addFromPath now contents
      files bucket key uploadIdRaw u b address mu parts cs c hparse huuid hmu hresolve
      hattach haf hrun
    obtain ⟨hasc, hcnt, hcs, hfiles⟩ := completeParts_ok_shape contents u parts files 0 cs c hrun
    simp only [complete_multipart_upload, basinNew, Option.isNone_some, Bool.false_eq_true,
      if_false, hparse, hmu, huuid, Option.getD_some]
    rw [show completeParts contents u parts files 0
        = ((completeParts contents u parts files 0).1,
           (completeParts contents u parts files 0).2) from rfl, hrun]
    simp only [hresolve, hattach, haf]
    have hmap : (List.map (fun j => contents (get_upload_part_path u (0 + Int.ofNat j + 1)))
        (List.range parts.length)).map md5
        = (List.range parts.length).map
            (fun j => md5 (contents (get_upload_part_path u (Int.ofNat j + 1)))) := by
      rw [List.map_map]
      apply List.map_congr_left
      intro j hj
      simp only [Function.comp_apply, zero_add]
    rw [hcs, hcnt, zero_add, hmap]

/-- C2 witness: identity digest, a two-chunk PUT body, and a one-part
completion whose part file holds `[7]`. -/
theorem etag_single_put_and_multipart_witness :
    (put_object (basinNew (some ())) (fun l => l) (fun _ => .ok 1) (fun a => .ok a)
        (fun _ => .ok [⟨5, [("alias", "foo")]⟩]) (fun _ => .ok ())
        (fun _ _ _ _ _ => .ok ()) 0 "a.foo" "k"
        (some ([[1, 2], [3]].map Except.ok)) none
      = .ok ⟨some ("\"" ++ hex ([[1, 2], [3]] : List (List Nat)).flatten ++ "\"")⟩)
    ∧ ((complete_multipart_upload (basinNew (some ())) (fun l => l) (fun _ => .ok 1)
        (fun a => .ok a) (fun s => some s) (fun _ => .ok [⟨5, [("alias", "foo")]⟩])
        (fun _ => .ok ()) (fun _ _ _ _ _ => .ok ()) 0 (fun _ => [7])
        [get_upload_part_path "u" 1] "a.foo" "k" "u" (some ⟨some [⟨some 1⟩]⟩)).1
      = .ok ⟨some ("\"" ++
          hex (((List.range 1).map
            (fun j => (fun (l : List Nat) => l)
              ((fun (_ : String) => ([7] : List Nat)) (get_upload_part_path "u" (Int.ofNat j + 1))))).flatten)
          ++ "-" ++ toString (Int.ofNat 1) ++ "\""),
          some "foo", some "k"⟩) := by
  constructor
  · exact etag_single_put_and_multipart.1 Unit () (fun l => l) (fun _ => .ok 1)
      (fun a => .ok a) (fun _ => .ok [⟨5, [("alias", "foo")]⟩]) (fun _ => .ok ())
      (fun _ _ _ _ _ => .ok ()) 0 "a.foo" "k" [[1, 2], [3]] none ⟨"foo", 1⟩ 5
      rfl rfl rfl (fun _ _ _ _ _ => rfl)
  · exact etag_single_put_and_multipart.2 Unit () (fun l => l) (fun _ => .ok 1)
      (fun a => .ok a) (fun s => some s) (fun _ => .ok [⟨5, [("alias", "foo")]⟩])
      (fun _ => .ok ()) (fun _ _ _ _ _ => .ok ()) 0 (fun _ => [7])
      [get_upload_part_path "u" 1] "a.foo" "k" "u" "u" ⟨"foo", 1⟩ 5 ⟨some [⟨some 1⟩]⟩
      [⟨some 1⟩] [[7]] 1 rfl rfl rfl rfl rfl (fun _ _ _ _ _ => rfl) (by decide)

end BasinS3

namespace BasinS3

/-- C9: when the body stream yields an error after a prefix of chunks,
`put_object` does not fail — its `while let Some(Ok(v))` loop stops at the
error, only the prefix is stored (that is what `putConsume` passes to
`add_from_path`), and the returned ETag is computed over that prefix — while
`upload_part` propagates the same stream error as an error result
(`InternalError`, via `copy_bytes` and `From<Error> for S3Error`). -/
theorem put_object_swallows_stream_error :
    (∀ (W : Type) (w : W) (md5 : List Nat → List Nat)
        (ethParse : String → Except String Nat) (ethToFil : Nat → Except String Nat)
        (bucketList : Nat → Except String (List BucketItem))
        (attach : Nat → Except String Unit)
        (addFromPath : Nat → W → String → List Nat → List (String × String) →
          Except String Unit)
        (now : Nat) (bucket key : String) (chunks : List (List Nat)) (emsg : String)
        (rest : List (Except String (List Nat)))
        (userMetadata : Option (List (String × String)))
        (b : BucketNameWithOwner) (address : Nat),
      BucketNameWithOwner_from ethParse ethToFil bucket = .ok b →
      get_bucket_address_by_alias (bucketList b.owner) b.name = .ok (some address) →
      attach address = .ok () →
      (∀ a ww k bs m, addFromPath a ww k bs m = Except.ok ()) →
      put_object (basinNew (some w)) md5 ethParse ethToFil bucketList attach addFromPath now
          bucket key (some (chunks.map Except.ok ++ Except.error emsg :: rest)) userMetadata
        = .ok ⟨some ("\"" ++ hex (md5 chunks.flatten) ++ "\"")⟩
      ∧ putConsume (chunks.map Except.ok ++ Except.error emsg :: rest) = chunks)
    ∧ (∀ (W : Type) (w : W) (md5 : List Nat → List Nat)
        (uuidParse : String → Option String) (uploadIdRaw u : String) (partNumber : Int)
        (chunks : List (List Nat)) (emsg : String) (rest : List (Except String (List Nat)))
        (files : List String),
      uuidParse uploadIdRaw = some u →
      (upload_part (basinNew (some w)) md5 uuidParse uploadIdRaw partNumber
          (some (chunks.map Except.ok ++ Except.error emsg :: rest)) files).1
        = .err .InternalError) := by
  constructor
  · intro W w md5 ethParse ethToFil bucketList attach addFromPath now bucket key chunks emsg
      rest userMetadata b address hparse hresolve hattach haf
    refine ⟨?_, putConsume_ok_then_error chunks emsg rest⟩
    simp only [put_object, basinNew, Option.isNone_some, Bool.false_eq_true, if_false,
      hparse, hresolve, hattach, haf, putConsume_ok_then_error]
  · intro W w md5 uuidParse uploadIdRaw u partNumber chunks emsg rest files huuid
    simp only [upload_part, basinNew, Option.isNone_some, Bool.false_eq_true, if_false,
      huuid, copy_bytes_ok_then_error]

/-- C9 witness: a body `[ok [1,2], error, ok [9]]` is stored by `put_object`
as `[1,2]` with a success ETag over `[1,2]`, while `upload_part` fails with
`InternalError` on the same body. -/
theorem put_object_swallows_stream_error_witness :
    (put_object (basinNew (some ())) (fun l => l) (fun _ => .ok 1) (fun a => .ok a)
        (fun _ => .ok [⟨5, [("alias", "foo")]⟩]) (fun _ => .ok ())
        (fun _ _ _ _ _ => .ok ()) 0 "a.foo" "k"
        (some (([[1, 2]] : List (List Nat)).map Except.ok ++
          Except.error "boom" :: [Except.ok [9]])) none
      = .ok ⟨some ("\"" ++ hex ([[1, 2]] : List (List Nat)).flatten ++ "\"")⟩)
    ∧ putConsume (([[1, 2]] : List (List Nat)).map Except.ok ++
        Except.error "boom" :: [Except.ok [9]]) = [[1, 2]]
    ∧ (upload_part (basinNew (some ())) (fun l => l) (fun s => some s) "u" 1
        (some (([[1, 2]] : List (List Nat)).map Except.ok ++
          Except.error "boom" :: [Except.ok [9]])) []).1 = .err .InternalError := by
  obtain ⟨h1, h2⟩ := put_object_swallows_stream_error.1 Unit () (fun l => l)
    (fun _ => .ok 1) (fun a => .ok a) (fun _ => .ok [⟨5, [("alias", "foo")]⟩])
    (fun _ => .ok ()) (fun _ _ _ _ _ => .ok ()) 0 "a.foo" "k" [[1, 2]] "boom"
    [Except.ok [9]] none ⟨"foo", 1⟩ 5 rfl rfl rfl (fun _ _ _ _ _ => rfl)
  exact ⟨h1, h2, put_object_swallows_stream_error.2 Unit () (fun l => l) (fun s => some s)
    "u" "u" 1 [[1, 2]] "boom" [Except.ok [9]] [] rfl⟩

end BasinS3

namespace BasinS3

/-- C6 counterexample: with a backend whose delete transaction fails with
message `"boom"`, `delete_objects` on keys `["k1", "k2"]` submits only the
first delete and fails with `Custom "boom"` — not `InternalError` as the
claim states. -/
theorem delete_objects_failure_is_custom_eval :
    delete_objects (β := Unit) (basinNew (some ())) (fun _ => .ok 1) (fun a => .ok a)
        (fun _ => .ok [⟨5, [("alias", "foo")]⟩]) (fun _ => .ok ())
        (fun _ _ => .error "boom") () "a.foo" ["k1", "k2"]
      = (.err (.Custom "boom"), ["k1"])
    ∧ S3ErrCode.Custom "boom" ≠ S3ErrCode.InternalError := by
  exact ⟨rfl, by decide⟩

/-- C6 (amended): `delete_objects` submits one delete transaction per listed
key, sequentially and awaited in list order; when every delete succeeds all
keys are submitted and the call succeeds, and when one fails, the submitted
keys are exactly the successful prefix plus the failing key (keys after it
are never submitted) and the operation fails with `Custom(<backend
message>)`. -/
theorem delete_objects_sequential_first_failure :
    ∀ (W β : Type) (w : W) (ethParse : String → Except String Nat)
      (ethToFil : Nat → Except String Nat)
      (bucketList : Nat → Except String (List BucketItem))
      (attach : Nat → Except String Unit)
      (del : β → String → Except String β) (backend : β) (bucket : String)
      (keys : List String) (b : BucketNameWithOwner) (address : Nat),
    BucketNameWithOwner_from ethParse ethToFil bucket = .ok b →
    get_bucket_address_by_alias (bucketList b.owner) b.name = .ok (some address) →
    attach address = .ok () →
    ((∀ b2, (delete_objects_loop del backend keys).2 = .ok b2 →
        delete_objects (basinNew (some w)) ethParse ethToFil bucketList attach del backend
          bucket keys = (.ok (), keys))
     ∧ (∀ e, (delete_objects_loop del backend keys).2 = .error e →
        delete_objects (basinNew (some w)) ethParse ethToFil bucketList attach del backend
          bucket keys = (.err (.Custom e), (delete_objects_loop del backend keys).1)
        ∧ ∃ tr0 k rest b0, keys = tr0 ++ k :: rest ∧
            (delete_objects_loop del backend tr0).2 = .ok b0 ∧ del b0 k = .error e ∧
            (delete_objects_loop del backend keys).1 = tr0 ++ [k])) := by
  intro W β w ethParse ethToFil bucketList attach del backend bucket keys b address
    hparse hresolve hattach
  constructor
  · intro b2 hloop
    simp only [delete_objects, basinNew, Option.isNone_some, Bool.false_eq_true, if_false,
      hparse, hresolve, hattach]
    rw [show delete_objects_loop del backend keys
        = ((delete_objects_loop del backend keys).1,
           (delete_objects_loop del backend keys).2) from rfl, hloop]
    rw [delete_objects_loop_ok_trace del backend b2 keys hloop]
  · intro e hloop
    constructor
    · simp only [delete_objects, basinNew, Option.isNone_some, Bool.false_eq_true, if_false,
        hparse, hresolve, hattach]
      rw [show delete_objects_loop del backend keys
          = ((delete_objects_loop del backend keys).1,
             (delete_objects_loop del backend keys).2) from rfl, hloop]
    · exact delete_objects_loop_error_decomp del backend keys e hloop

/-- C6 witness: the amended theorem applied to a two-key batch whose second
delete fails. -/
theorem delete_objects_sequential_first_failure_witness :
    delete_objects (β := Nat) (basinNew (some ())) (fun _ => .ok 1) (fun a => .ok a)
        (fun _ => .ok [⟨5, [("alias", "foo")]⟩]) (fun _ => .ok ())
        (fun n k => if k = "k2" then .error "late" else .ok (n + 1)) 0 "a.foo" ["k1", "k2"]
      = (.err (.Custom "late"),
          (delete_objects_loop (fun n k => if k = "k2" then .error "late" else .ok (n + 1))
            0 ["k1", "k2"]).1) :=
  ((delete_objects_sequential_first_failure Unit Nat () (fun _ => .ok 1) (fun a => .ok a)
      (fun _ => .ok [⟨5, [("alias", "foo")]⟩]) (fun _ => .ok ())
      (fun n k => if k = "k2" then .error "late" else .ok (n + 1)) 0 "a.foo" ["k1", "k2"]
      ⟨"foo", 1⟩ 5 rfl rfl rfl).2 "late" (by rfl)).1

end BasinS3

namespace BasinS3

/-- When the parts pass the ascending check, the completion loop can only
succeed or fail on a missing part file. -/
theorem completeParts_ascending_result (contents : String → List Nat) (u : String) :
    ∀ (parts : List CompletedPart) (files : List String) (cnt : Int),
    partsAscendingFrom cnt parts = true →
    (∃ cs c, (completeParts contents u parts files cnt).2 = .ok (cs, c)) ∨
    (completeParts contents u parts files cnt).2 = .err .InternalError := by
  intro parts
  induction parts with
  | nil =>
    intro files cnt h
    exact Or.inl ⟨[], cnt, rfl⟩
  | cons p ps ih =>
    intro files cnt h
    simp only [partsAscendingFrom, Bool.and_eq_true, beq_iff_eq] at h
    obtain ⟨hpn, hrest⟩ := h
    by_cases hmem : get_upload_part_path u (cnt + 1) ∈ files
    · have hsnd : (completeParts contents u (p :: ps) files cnt).2 =
          (match (completeParts contents u ps
              (files.erase (get_upload_part_path u (cnt + 1))) (cnt + 1)).2 with
           | Outcome.ok (cs, c) =>
             Outcome.ok (contents (get_upload_part_path u (cnt + 1)) :: cs, c)
           | Outcome.err e => Outcome.err e
           | Outcome.crashed => Outcome.crashed) := by
        rw [completeParts, hpn]
        simp [hmem]
      rcases ih (files.erase (get_upload_part_path u (cnt + 1))) (cnt + 1) hrest with
        ⟨cs, c, hok⟩ | herr
      · exact Or.inl ⟨contents (get_upload_part_path u (cnt + 1)) :: cs, c,
          by rw [hsnd, hok]⟩
      · exact Or.inr (by rw [hsnd, herr])
    · right
      rw [completeParts, hpn]
      simp [hmem]

/-- C7: `complete_multipart_upload` iterates the given parts in order and
requires the i-th part to carry number `i + 1` (ascending from 1, no gaps):
any violating parts list fails with `InvalidRequest` (unless a missing part
file already failed the loop with `InternalError`), and on the compliant
list the call succeeds with every consumed part file erased from the staging
root in consumption order. -/
theorem complete_part_order_and_cleanup :
    ∀ (W : Type) (w : W) (md5 : List Nat → List Nat)
      (ethParse : String → Except String Nat) (ethToFil : Nat → Except String Nat)
      (uuidParse : String → Option String)
      (bucketList : Nat → Except String (List BucketItem))
      (attach : Nat → Except String Unit)
      (addFromPath : Nat → W → String → List Nat → List (String × String) →
        Except String Unit)
      (now : Nat) (contents : String → List Nat) (files : List String)
      (bucket key uploadIdRaw u : String) (b : BucketNameWithOwner) (address : Nat)
      (mu : CompletedMultipartUpload) (parts : List CompletedPart),
    BucketNameWithOwner_from ethParse ethToFil bucket = .ok b →
    uuidParse uploadIdRaw = some u →
    mu.parts = some parts →
    get_bucket_address_by_alias (bucketList b.owner) b.name = .ok (some address) →
    attach address = .ok () →
    (∀ a ww k bs m, addFromPath a ww k bs m = Except.ok ()) →
    ((¬ ∀ i (hi : i < parts.length), (parts.get ⟨i, hi⟩).part_number = some (Int.ofNat i + 1)) →
      (completeParts contents u parts files 0).2 ≠ .err .InternalError →
      (complete_multipart_upload (basinNew (some w)) md5 ethParse ethToFil uuidParse
          bucketList attach addFromPath now contents files bucket key uploadIdRaw
          (some mu)).1
        = .err .InvalidRequest)
    ∧ ((∀ i (hi : i < parts.length), (parts.get ⟨i, hi⟩).part_number = some (Int.ofNat i + 1)) →
      (completeParts contents u parts files 0).2 ≠ .err .InternalError →
      complete_multipart_upload (basinNew (some w)) md5 ethParse ethToFil uuidParse
          bucketList attach addFromPath now contents files bucket key uploadIdRaw (some mu)
        = (.ok ⟨some ("\"" ++
              hex (md5 (((List.range parts.length).map
                (fun j => md5 (contents (get_upload_part_path u (Int.ofNat j + 1))))).flatten))
              ++ "-" ++ toString (Int.ofNat parts.length) ++ "\""),
              some b.name, some key⟩,
           (List.range parts.length).foldl
             (fun fs j => fs.erase (get_upload_part_path u (Int.ofNat j + 1))) files)) := by
  intro W w md5 ethParse ethToFil uuidParse bucketList attach addFromPath now contents files
    bucket key uploadIdRaw u b address mu parts hparse huuid hmu hresolve hattach haf
  have hbridge : partsAscendingFrom 0 parts = true ↔
      ∀ i (hi : i < parts.length), (parts.get ⟨i, hi⟩).part_number = some (Int.ofNat i + 1) := by
    rw [partsAscendingFrom_iff parts 0]
    constructor
    · intro h i hi
      have := h i hi
      rwa [zero_add] at this
    · intro h i hi
      rw [zero_add]
      exact h i hi
  constructor
  · intro hviol hnio
    have hasc : partsAscendingFrom 0 parts = false := by
      cases hb : partsAscendingFrom 0 parts
      · rfl
      · exact absurd (hbridge.mp hb) hviol
    rcases completeParts_not_ascending contents u parts files 0 hasc with h | h
    · simp only [complete_multipart_upload, basinNew, Option.isNone_some, Bool.false_eq_true,
        if_false, hparse, hmu, huuid, Option.getD_some]
      rw [show completeParts contents u parts files 0
          = ((completeParts contents u parts files 0).1,
             (completeParts contents u parts files 0).2) from rfl, h]
    · exact absurd h hnio
  · intro hok hnio
    have hasc : partsAscendingFrom 0 parts = true := hbridge.mpr hok
    rcases completeParts_ascending_result contents u parts files 0 hasc with
      ⟨cs, c, hrun⟩ | h
    · obtain ⟨-, hcnt, hcs, hfiles⟩ := completeParts_ok_shape contents u parts files 0 cs c hrun
      simp only [complete_multipart_upload, basinNew, Option.isNone_some, Bool.false_eq_true,
        if_false, hparse, hmu, huuid, Option.getD_some]
      rw [show completeParts contents u parts files 0
          = ((completeParts contents u parts files 0).1,
             (completeParts contents u parts files 0).2) from rfl, hrun]
      simp only [hresolve, hattach, haf]
      have hmap : (List.map (fun j => contents (get_upload_part_path u (0 + Int.ofNat j + 1)))
          (List.range parts.length)).map md5
          = (List.range parts.length).map
              (fun j => md5 (contents (get_upload_part_path u (Int.ofNat j + 1)))) := by
        rw [List.map_map]
        apply List.map_congr_left
        intro j hj
        simp only [Function.comp_apply, zero_add]
      have hfiles2 : (completeParts contents u parts files 0).1 =
          (List.range parts.length).foldl
            (fun fs j => fs.erase (get_upload_part_path u (Int.ofNat j + 1))) files := by
        rw [hfiles]
        congr 1
        funext fs j
        rw [zero_add]
      rw [hcs, hcnt, zero_add, hmap, hfiles2]
    · exact absurd h hnio

/-- C7 witness: a single part numbered 2 (violating "ascending from 1")
fails with `InvalidRequest`. -/
theorem complete_part_order_and_cleanup_witness :
    (complete_multipart_upload (basinNew (some ())) (fun l => l) (fun _ => .ok 1)
        (fun a => .ok a) (fun s => some s) (fun _ => .ok [⟨5, [("alias", "foo")]⟩])
        (fun _ => .ok ()) (fun _ _ _ _ _ => .ok ()) 0 (fun _ => [7])
        [get_upload_part_path "u" 1] "a.foo" "k" "u" (some ⟨some [⟨some 2⟩]⟩)).1
      = .err .InvalidRequest :=
  (complete_part_order_and_cleanup Unit () (fun l => l) (fun _ => .ok 1) (fun a => .ok a)
      (fun s => some s) (fun _ => .ok [⟨5, [("alias", "foo")]⟩]) (fun _ => .ok ())
      (fun _ _ _ _ _ => .ok ()) 0 (fun _ => [7]) [get_upload_part_path "u" 1] "a.foo" "k"
      "u" "u" ⟨"foo", 1⟩ 5 ⟨some [⟨some 2⟩]⟩ [⟨some 2⟩]
      rfl rfl rfl rfl rfl (fun _ _ _ _ _ => rfl)).1
    (by
      intro hall
      have := hall 0 (by decide)
      simp at this)
    (by decide)

end BasinS3

namespace BasinS3

/-- C8: `check_bucket_name(n)` is true exactly when `n` is 3 to 20 bytes
long, drawn from `[a-z0-9.-]`, starts and ends alphanumeric, and has no
`".."` substring. -/
theorem check_bucket_name_spec (name : List Nat) :
    check_bucket_name name = true ↔ bucketNameSpec name :=
  check_bucket_name_iff name

/-- C10: a stored `last_modified` (or, for ListBuckets, `creation_date`)
metadata value that is present but not parseable as decimal epoch seconds
makes GetObject, ListBuckets, ListObjectsV2 and HeadObject panic — the
`Timestamp::parse(..).unwrap()` call crashes the handler instead of
returning an S3 error result. -/
theorem metadata_timestamp_unwrap_panics :
    (∀ (W : Type) (g : Gateway W) (ethParse : String → Except String Nat)
        (ethToFil : Nat → Except String Nat)
        (bucketList : Nat → Except String (List BucketItem))
        (attach : Nat → Except String Unit)
        (query : Nat → String → Except String (List (List Nat × Option ObjectState)))
        (rangeCheck : S3Range → Nat → Except S3ErrCode (Nat × Nat))
        (tsParse : String → Option Nat) (bucket key : String)
        (b : BucketNameWithOwner) (address : Nat) (obj : ObjectState) (v : String),
      BucketNameWithOwner_from ethParse ethToFil bucket = .ok b →
      get_bucket_address_by_alias (bucketList b.owner) b.name = .ok (some address) →
      attach address = .ok () →
      basin_get_object (query address key) = .ok obj →
      obj.size < 2 ^ 63 →
      lookupMeta obj.metadata "last_modified" = some v →
      tsParse v = none →
      get_object_verb g ethParse ethToFil bucketList attach query rangeCheck tsParse
        bucket key none = .crashed)
    ∧ (∀ (W : Type) (w : W) (bucketListWallet : W → Except String (List BucketItem))
        (tsParse : String → Option Nat) (addrStr : Nat → String)
        (it : BucketItem) (rest : List BucketItem) (v : String),
      bucketListWallet w = .ok (it :: rest) →
      lookupMeta it.metadata "creation_date" = some v →
      tsParse v = none →
      list_buckets (basinNew (some w)) bucketListWallet tsParse addrStr = .crashed)
    ∧ (∀ (W : Type) (g : Gateway W) (ethParse : String → Except String Nat)
        (ethToFil : Nat → Except String Nat)
        (bucketList : Nat → Except String (List BucketItem))
        (attach : Nat → Except String Unit)
        (queryList : Nat → String → String → Option (List Nat) → Nat →
          Except String QueryResponse)
        (tsParse : String → Option Nat) (utf8Lossy : List Nat → String)
        (utf8Strict : List Nat → Option String) (bucket : String)
        (b : BucketNameWithOwner) (address : Nat) (resp : QueryResponse)
        (k : List Nat) (st : ObjectState) (rest : List (List Nat × ObjectState)) (v : String),
      BucketNameWithOwner_from ethParse ethToFil bucket = .ok b →
      get_bucket_address_by_alias (bucketList b.owner) b.name = .ok (some address) →
      attach address = .ok () →
      queryList address "" "" none 1000 = .ok resp →
      resp.objects = (k, st) :: rest →
      lookupMeta st.metadata "last_modified" = some v →
      tsParse v = none →
      list_objects_v2 g ethParse ethToFil bucketList attach queryList tsParse utf8Lossy
        utf8Strict bucket none none none none = .crashed)
    ∧ (∀ (W : Type) (g : Gateway W) (ethParse : String → Except String Nat)
        (ethToFil : Nat → Except String Nat)
        (bucketList : Nat → Except String (List BucketItem))
        (attach : Nat → Except String Unit)
        (queryHead : Nat → String → Except String (List (List Nat × ObjectState)))
        (tsParse : String → Option Nat) (bucket key : String)
        (b : BucketNameWithOwner) (address : Nat) (k : List Nat) (st : ObjectState)
        (rest : List (List Nat × ObjectState)) (v : String),
      BucketNameWithOwner_from ethParse ethToFil bucket = .ok b →
      get_bucket_address_by_alias (bucketList b.owner) b.name = .ok (some address) →
      attach address = .ok () →
      queryHead address key = .ok ((k, st) :: rest) →
      st.size < 2 ^ 63 →
      lookupMeta st.metadata "last_modified" = some v →
      tsParse v = none →
      head_object g ethParse ethToFil bucketList attach queryHead tsParse bucket key
        = .crashed) := by
  refine ⟨?_, ?_, ?_, ?_⟩
  · intro W g ethParse ethToFil bucketList attach query rangeCheck tsParse bucket key b
      address obj v hparse hresolve hattach hquery hsize hmeta hts
    simp only [get_object_verb, hparse, hresolve, hattach, hquery, hmeta, hts, if_pos hsize]
  · intro W w bucketListWallet tsParse addrStr it rest v hlist hmeta hts
    simp only [list_buckets, basinNew, Option.isNone_some, Bool.false_eq_true, if_false,
      hlist, list_buckets_loop, hmeta, hts]
  · intro W g ethParse ethToFil bucketList attach queryList tsParse utf8Lossy utf8Strict
      bucket b address resp k st rest v hparse hresolve hattach hquery hobjs hmeta hts
    simp only [list_objects_v2, hparse, hresolve, hattach, Option.getD_none, Option.map_none',
      Nat.min_self, hquery, hobjs, list_v2_objects_loop, hmeta, hts]
  · intro W g ethParse ethToFil bucketList attach queryHead tsParse bucket key b address k
      st rest v hparse hresolve hattach hquery hsize hmeta hts
    simp only [head_object, hparse, hresolve, hattach, hquery, List.head?_cons, hmeta, hts,
      if_pos hsize]

/-- C10 witness: a stored value `"not-a-number"` rejected by the timestamp
parser crashes all four handlers. -/
theorem metadata_timestamp_unwrap_panics_witness :
    (get_object_verb (basinNew (some ())) (fun _ => .ok 1) (fun a => .ok a)
        (fun _ => .ok [⟨5, [("alias", "foo")]⟩]) (fun _ => .ok ())
        (fun _ _ => .ok [([107], some ⟨3, [("last_modified", "not-a-number")]⟩)])
        (fun _ _ => .error .InvalidRange) (fun _ => none) "a.foo" "k" none = .crashed)
    ∧ (list_buckets (basinNew (some ())) (fun _ => .ok [⟨5, [("creation_date", "not-a-number")]⟩])
        (fun _ => none) (fun _ => "addr") = .crashed)
    ∧ (list_objects_v2 (basinNew (some ())) (fun _ => .ok 1) (fun a => .ok a)
        (fun _ => .ok [⟨5, [("alias", "foo")]⟩]) (fun _ => .ok ())
        (fun _ _ _ _ _ => .ok ⟨[([107], ⟨3, [("last_modified", "not-a-number")]⟩)], [], none⟩)
        (fun _ => none) (fun _ => "") (fun _ => none) "a.foo" none none none none = .crashed)
    ∧ (head_object (basinNew (some ())) (fun _ => .ok 1) (fun a => .ok a)
        (fun _ => .ok [⟨5, [("alias", "foo")]⟩]) (fun _ => .ok ())
        (fun _ _ => .ok [([107], ⟨3, [("last_modified", "not-a-number")]⟩)])
        (fun _ => none) "a.foo" "k" = .crashed) := by
  obtain ⟨h1, h2, h3, h4⟩ := metadata_timestamp_unwrap_panics
  refine ⟨?_, ?_, ?_, ?_⟩
  · exact h1 Unit (basinNew (some ())) (fun _ => .ok 1) (fun a => .ok a)
      (fun _ => .ok [⟨5, [("alias", "foo")]⟩]) (fun _ => .ok ())
      (fun _ _ => .ok [([107], some ⟨3, [("last_modified", "not-a-number")]⟩)])
      (fun _ _ => .error .InvalidRange) (fun _ => none) "a.foo" "k" ⟨"foo", 1⟩ 5
      ⟨3, [("last_modified", "not-a-number")]⟩ "not-a-number" rfl rfl rfl rfl (by decide)
      rfl rfl
  · exact h2 Unit () (fun _ => .ok [⟨5, [("creation_date", "not-a-number")]⟩])
      (fun _ => none) (fun _ => "addr") ⟨5, [("creation_date", "not-a-number")]⟩ []
      "not-a-number" rfl rfl rfl
  · exact h3 Unit (basinNew (some ())) (fun _ => .ok 1) (fun a => .ok a)
      (fun _ => .ok [⟨5, [("alias", "foo")]⟩]) (fun _ => .ok ())
      (fun _ _ _ _ _ => .ok ⟨[([107], ⟨3, [("last_modified", "not-a-number")]⟩)], [], none⟩)
      (fun _ => none) (fun _ => "") (fun _ => none) "a.foo" ⟨"foo", 1⟩ 5
      ⟨[([107], ⟨3, [("last_modified", "not-a-number")]⟩)], [], none⟩ [107]
      ⟨3, [("last_modified", "not-a-number")]⟩ [] "not-a-number" rfl rfl rfl rfl rfl rfl rfl
  · exact h4 Unit (basinNew (some ())) (fun _ => .ok 1) (fun a => .ok a)
      (fun _ => .ok [⟨5, [("alias", "foo")]⟩]) (fun _ => .ok ())
      (fun _ _ => .ok [([107], ⟨3, [("last_modified", "not-a-number")]⟩)])
      (fun _ => none) "a.foo" "k" ⟨"foo", 1⟩ 5 [107]
      ⟨3, [("last_modified", "not-a-number")]⟩ [] "not-a-number" rfl rfl rfl rfl (by decide)
      rfl rfl

end BasinS3
